import Mathlib

/-!
Verification development for the `llmwrappers` repository.

Shallow embedding of the core pieces the spec describes:
* `llm_decorator.py` — keyword-argument partitioning, the default hook and
  the composable decorator chain;
* `oai_wrapper.py` — the streaming aggregator (`collect_response`), the
  token accounting of the two streaming paths, and the multi-turn tool loop
  (`query`, `handle_tool_call`);
* `llm_engine.py` — the backend pool with retry, backoff counting and
  eviction (`__new__`'s `select_wrapper` / `async_wrapper`).

Python dictionaries of keyword arguments are modelled as functions
`String → Option V`; Python `or` / truthiness on optional strings is
modelled explicitly.  Backends are identified by a `Nat` (object identity);
the external rate limiter's `next_allowed()` values and the success or
failure of each network attempt are inputs to the model, since they are
external to the code under study.
-/

namespace LLMWrappers

/-- Python truthiness of an optional string: `None` and `""` are falsy. -/
def pyTruthy : Option String → Bool
  | none => false
  | some s => s ≠ ""

/-- Python `a or b` on optional strings: `a` when truthy, else `b`. -/
def pyOr (a b : Option String) : Option String :=
  if pyTruthy a then a else b

/-- Python `x or ''` on an optional string. -/
def orEmpty : Option String → String
  | none => ""
  | some s => s

/-! ### Argument partitioning and the hook chain (`llm_decorator.py`) -/

/-- The Unicode simple uppercase mapping implemented by the `str.upper()`
builtin, restricted to the code points this development reasons about: on
ASCII it is the ASCII case mapping, and of the non-ASCII code points we
use only U+00E9 (latin small e with acute, uppercase U+00C9) and U+2170
(small roman numeral one, uppercase U+2160, a non-alphabetic cased
character).  The full Unicode table is not modelled, so every general
theorem below restricts its keys to ASCII characters, where this mapping
is exact. -/
def pyUpperChar (c : Char) : Char :=
  if c = 'é' then 'É'
  else if c = 'ⅰ' then 'Ⅰ'
  else c.toUpper

/-- Python's `str.upper()` applied character-wise. -/
def pyUpperStr (s : String) : String :=
  String.mk (s.data.map pyUpperChar)

/-- `k == k.upper()` — the classification rule used by
`LLMDecorator._hook_all_args` (llm_decorator.py:163) and
`OAIWrapper.query` (oai_wrapper.py:86). -/
def isPromptKey (k : String) : Bool :=
  k = pyUpperStr k

/-- `{k: v for k, v in kwargs.items() if k == k.upper()}`. -/
def promptArgsOf {V : Type} (kw : String → Option V) : String → Option V :=
  fun k => if isPromptKey k then kw k else none

/-- `{k: v for k, v in kwargs.items() if k != k.upper()}`. -/
def apiArgsOf {V : Type} (kw : String → Option V) : String → Option V :=
  fun k => if isPromptKey k then none else kw k

/-- Python `{**p, **a}`: union where `a` wins on key collisions.  This is
what the default `hook_query` yields back (llm_decorator.py:149). -/
def mergeArgs {V : Type} (p a : String → Option V) : String → Option V :=
  fun k =>
    match a k with
    | some v => some v
    | none => p k

/-- One decorator layer with the default identity hook: partition the
kwargs, run the default merge, call the wrapped layer exactly once with the
merged mapping, and return its result unchanged (the default after-phase
observes nothing). -/
def decoratorStep {V R : Type} (inner : (String → Option V) → R)
    (kw : String → Option V) : R :=
  inner (mergeArgs (promptArgsOf kw) (apiArgsOf kw))

/-- A chain of `K` decorator layers with default hooks around a backend. -/
def decoratorChain {V R : Type} (inner : (String → Option V) → R) :
    Nat → (String → Option V) → R
  | 0 => inner
  | k + 1 => decoratorStep (decoratorChain inner k)

/-- An instrumented backend that records the argument mappings it is
invoked with; used to count delegations through the chain. -/
def loggingBackend {V : Type} (kw : String → Option V) :
    List (String → Option V) :=
  [kw]

/-! ### Stream aggregation (`collect_response`, oai_wrapper.py:178-236) -/

instance {ε α : Type} [DecidableEq ε] [DecidableEq α] : DecidableEq (Except ε α) :=
  fun x y =>
    match x, y with
    | .ok a, .ok b =>
        if h : a = b then isTrue (by rw [h])
        else isFalse (fun he => h (Except.ok.inj he))
    | .error a, .error b =>
        if h : a = b then isTrue (by rw [h])
        else isFalse (fun he => h (Except.error.inj he))
    | .ok _, .error _ => isFalse (fun he => Except.noConfusion he)
    | .error _, .ok _ => isFalse (fun he => Except.noConfusion he)

/-- One incremental tool-call fragment from a streamed chunk
(`chunk.choices[0].delta.tool_calls[i]`): on the wire all three fields are
optional. -/
structure Frag where
  id : Option String
  name : Option String
  args : Option String
deriving DecidableEq, Repr

/-- A finalized tool call, `ChatCompletionMessageToolCall(id, Function
(arguments, name))`.  In the pydantic models `id`, `name` and `arguments`
are all required `str` fields, so a constructed value always carries plain
strings. -/
structure ToolCall where
  id : String
  name : String
  args : String
deriving DecidableEq, Repr

/-- The pydantic error raised when a required field receives `None`
during model construction. -/
inductive PydanticErr where
  | validationError
deriving DecidableEq, Repr

/-- Accumulator state of `collect_response`: finalized calls plus the
current `current_tool_id` / `current_tool_name` / `current_tool_args`. -/
structure AggSt where
  finished : List ToolCall
  curId : Option String
  curName : Option String
  curArgs : List String
deriving DecidableEq, Repr

/-- `ChatCompletionMessageToolCall(id=current_tool_id, function=Function(
arguments=''.join(current_tool_args), name=current_tool_name))`; pydantic
raises a ValidationError when `current_tool_id` or `current_tool_name` is
`None`, since `id` and `name` are required `str` fields. -/
def finalizeCur (st : AggSt) : Except PydanticErr ToolCall :=
  match st.curId, st.curName with
  | some i, some n => .ok ⟨i, n, String.join st.curArgs⟩
  | _, _ => .error .validationError

/-- `tool_calls.append(...)` of the finalized current accumulator;
propagates the ValidationError of a failed construction. -/
def flushCur (st : AggSt) : Except PydanticErr AggSt :=
  match finalizeCur st with
  | .error e => .error e
  | .ok tc => .ok { st with finished := st.finished ++ [tc] }

/-- The per-fragment body of the `for tool_call in ... delta.tool_calls`
loop (oai_wrapper.py:203-220): a fragment with a truthy id flushes the
prior accumulator when the id differs (which raises a ValidationError if
the accumulated name is `None`), then restarts the accumulator seeded with
the fragment's fields; afterwards — unconditionally — the fragment's name
backfills a falsy current name and its argument text is appended to the
current argument list. -/
def stepFrag (st : AggSt) (f : Frag) : Except PydanticErr AggSt :=
  let cont := fun (st1 : AggSt) =>
    Except.ok
      { st1 with
          curName := pyOr st1.curName f.name,
          curArgs := st1.curArgs ++ [orEmpty f.args] }
  if pyTruthy f.id then
    let flushed :=
      if f.id ≠ st.curId then
        if pyTruthy st.curId then flushCur st else .ok st
      else .ok st
    match flushed with
    | .error e => .error e
    | .ok st0 =>
        cont { st0 with curId := f.id, curName := f.name,
                        curArgs := [orEmpty f.args] }
  else cont st

/-- Initial aggregator state (`tool_calls = []`, `current_tool_id = None`,
`current_tool_name = None`, `current_tool_args = []`). -/
def aggInit : AggSt := ⟨[], none, none, []⟩

/-- Fragment-level view of the tool-call reconstruction in
`collect_response`: fold all fragments in arrival order, then finalize any
open accumulator at stream end (oai_wrapper.py:222-230); a ValidationError
raised by either flush propagates to the caller. -/
def aggregateFrags (fs : List Frag) : Except PydanticErr (List ToolCall) :=
  match fs.foldlM stepFrag aggInit with
  | .error e => .error e
  | .ok st =>
      if pyTruthy st.curId then
        match flushCur st with
        | .error e => .error e
        | .ok st1 => .ok st1.finished
      else .ok st.finished

/-! ### Chunks and token accounting (oai_wrapper.py:188-195, 271-284) -/

/-- The delta of one streamed chunk's first choice. -/
structure ChoiceDelta where
  content : Option String
  toolCalls : List Frag
  finish : Option String
deriving DecidableEq, Repr

/-- One streamed chunk: `choices` may be empty (`if chunk.choices:`), and
`usage` is present only on the final chunk when `include_usage` is set. -/
structure Chunk where
  choices : Option ChoiceDelta
  usage : Option Nat
deriving DecidableEq, Repr

/-- Token update of the plain (no-tools) streaming path
(oai_wrapper.py:272-280): a usage-bearing chunk REPLACES the running count
(`metrics.tokens_consumed = chunk.usage.total_tokens`), a usage-less chunk
adds one. -/
def plainTokens (t : Nat) (c : Chunk) : Nat :=
  match c.usage with
  | some u => u
  | none => t + 1

/-- Running token count of the plain streaming path over a chunk list. -/
def plainTokensFold (cs : List Chunk) (t0 : Nat) : Nat :=
  cs.foldl plainTokens t0

/-- Token update of `collect_response` (oai_wrapper.py:188-195): a
usage-bearing chunk ADDS its total to the running count
(`metrics.tokens_consumed += chunk.usage.total_tokens`), a usage-less
chunk adds one. -/
def collectTokens (t : Nat) (c : Chunk) : Nat :=
  match c.usage with
  | some u => t + u
  | none => t + 1

/-- Full state of `collect_response`: the tool-call accumulator, the
content parts (`result`), the first truthy finish reason, and the running
token count. -/
structure CollectSt where
  agg : AggSt
  parts : List String
  finish : Option String
  tokens : Nat
deriving DecidableEq, Repr

/-- Per-chunk body of `collect_response` (oai_wrapper.py:187-220): token
update always runs; content append, `finish_reason = finish_reason or ...`
and the tool-call fragment loop run only when the chunk has choices; a
ValidationError from a mid-stream flush propagates. -/
def stepChunk (st : CollectSt) (c : Chunk) : Except PydanticErr CollectSt :=
  let tokens := collectTokens st.tokens c
  match c.choices with
  | none => .ok { st with tokens := tokens }
  | some d =>
      match d.toolCalls.foldlM stepFrag st.agg with
      | .error e => .error e
      | .ok agg =>
          .ok { agg := agg,
                parts :=
                  if pyTruthy d.content then st.parts ++ [orEmpty d.content]
                  else st.parts,
                finish := pyOr st.finish d.finish,
                tokens := tokens }

/-- Result of `collect_response`: the finalized tool calls, the joined
content, the finish reason, and the token count.  The Python function
returns either the calls or the content depending on the finish reason;
both are carried here and the caller discriminates exactly as the code
does. -/
structure CollectOut where
  calls : List ToolCall
  content : String
  finish : Option String
  tokens : Nat
deriving DecidableEq, Repr

/-- `collect_response(stream)` over a finite chunk list, starting from a
running token count `t0` (oai_wrapper.py:178-236); a ValidationError from
a mid-stream or end-of-stream flush propagates to the caller. -/
def collectResponse (cs : List Chunk) (t0 : Nat) : Except PydanticErr CollectOut :=
  match cs.foldlM stepChunk ⟨aggInit, [], none, t0⟩ with
  | .error e => .error e
  | .ok st =>
      if pyTruthy st.agg.curId then
        match flushCur st.agg with
        | .error e => .error e
        | .ok agg1 => .ok ⟨agg1.finished, String.join st.parts, st.finish, st.tokens⟩
      else .ok ⟨st.agg.finished, String.join st.parts, st.finish, st.tokens⟩

/-! ### Backend pool, retry and eviction (`llm_engine.py`) -/

/-- Lookup in the association-list model of the `_backoffs` dict. -/
def lookupA : List (Nat × Int) → Nat → Option Int
  | [], _ => none
  | (k', v) :: t, k => if k' = k then some v else lookupA t k

/-- `d[k] = v`: replace the value of the first entry with key `k`, or
append the binding when the key is absent. -/
def setA : List (Nat × Int) → Nat → Int → List (Nat × Int)
  | [], k, v => [(k, v)]
  | (k', v') :: t, k, v =>
      if k' = k then (k, v) :: t else (k', v') :: setA t k v

/-- `del d[k]`: drop every entry with key `k`. -/
def removeA (l : List (Nat × Int)) (k : Nat) : List (Nat × Int) :=
  l.filter (fun p => p.1 != k)

/-- State owned by one `LLMEngine` instance: the pooled `_wrappers` (in
pool order) and the `_backoffs` map from backend identity to its failure
counter (`-1` = healthy). -/
structure EngineState where
  wrappers : List Nat
  backoffs : List (Nat × Int)
deriving DecidableEq, Repr

/-- `select_wrapper` (llm_engine.py:95-98): `None` on an empty pool
(modelling the raised `Exception("No wrappers available")`), otherwise the
pooled backend with the smallest `rate_limit.next_allowed()` value `h`,
ties resolved to the earliest in pool order (Python's `sorted` is
stable). -/
def selectWrapper (h : Nat → Nat) : List Nat → Option Nat
  | [] => none
  | w :: ws => some (ws.foldl (fun best x => if h x < h best then x else best) w)

/-- The `except` branch of one failed attempt (llm_engine.py:126-133): if
the backend still has a backoff entry, increment its counter; when the
incremented counter equals `max_retries`, remove the backend from the pool
and delete its backoff entry. -/
def failStep (maxR : Nat) (st : EngineState) (b : Nat) : EngineState :=
  match lookupA st.backoffs b with
  | none => st
  | some c =>
      if c + 1 = (maxR : Int) then
        ⟨st.wrappers.erase b, removeA st.backoffs b⟩
      else
        { st with backoffs := setA st.backoffs b (c + 1) }

/-- The success branch of one attempt (llm_engine.py:116-118): reset the
selected backend's counter to the healthy sentinel `-1`. -/
def successStep (st : EngineState) (b : Nat) : EngineState :=
  { st with backoffs := setA st.backoffs b (-1) }

/-- One recorded attempt: the global attempt index `t` within the call,
the selected backend `b`, and whether the awaited operation succeeded. -/
structure Attempt where
  t : Nat
  b : Nat
  ok : Bool
deriving DecidableEq, Repr

/-- Outcome of one external call through the pool.  A failed attempt `t`
on backend `b` produces the (unique) underlying error `(t, b)`;
`exhausted` models `raise last_exception` and carries the captured error,
`noBackends` models the distinct `Exception("No wrappers available")`
raised by `select_wrapper`, which captures no backend error. -/
inductive Outcome where
  | success (b : Nat)
  | exhausted (last : Option (Nat × Nat))
  | noBackends
deriving DecidableEq, Repr

/-- Result of one external call: its outcome, the pool state afterwards,
and the trace of backend attempts actually made. -/
structure CallRes where
  outcome : Outcome
  state : EngineState
  trace : List Attempt
deriving DecidableEq, Repr

/-- The `for _ in range(_max_retries + 1)` retry loop of `async_wrapper`
(llm_engine.py:100-135).  `hints t b` is the external rate limiter's
`next_allowed()` value for backend `b` as read at attempt `t`; `outs t b`
says whether the awaited backend operation succeeds at attempt `t`.  The
backoff sleep only delays and is not modelled. -/
def runAttempts (maxR : Nat) (hints : Nat → Nat → Nat) (outs : Nat → Nat → Bool) :
    Nat → Nat → EngineState → Option (Nat × Nat) → List Attempt → CallRes
  | 0, _, st, last, tr => ⟨.exhausted last, st, tr⟩
  | fuel + 1, t, st, _last, tr =>
      match selectWrapper (hints t) st.wrappers with
      | none => ⟨.noBackends, st, tr⟩
      | some b =>
          if outs t b then
            ⟨.success b, successStep st b, tr ++ [⟨t, b, true⟩]⟩
          else
            runAttempts maxR hints outs fuel (t + 1) (failStep maxR st b)
              (some (t, b)) (tr ++ [⟨t, b, false⟩])

/-- One external call through the pool: up to `max_retries + 1` attempts
starting from attempt index `0` with no captured error. -/
def engineCall (maxR : Nat) (hints : Nat → Nat → Nat) (outs : Nat → Nat → Bool)
    (st : EngineState) : CallRes :=
  runAttempts maxR hints outs (maxR + 1) 0 st none []

/-- A sequence of external calls against the same pool instance, each with
its own rate-limit readings and attempt outcomes; returns the final state
and the per-call attempt traces. -/
def runCalls (maxR : Nat) :
    List ((Nat → Nat → Nat) × (Nat → Nat → Bool)) → EngineState →
      EngineState × List (List Attempt)
  | [], st => (st, [])
  | (h, o) :: rest, st =>
      let r := engineCall maxR h o st
      ((runCalls maxR rest r.state).1, r.trace :: (runCalls maxR rest r.state).2)

/-! ### Tool loop (`OAIWrapper.query`, oai_wrapper.py:84-311) -/

/-- Conversation messages, as appended by the tool loop.  Pre-existing
messages are opaque (`base`); `assistant` echoes the requested tool calls
(oai_wrapper.py:133-147); `tool` is one tool-result message
(oai_wrapper.py:169-174). -/
inductive Msg where
  | base (tag : String)
  | assistant (calls : List ToolCall)
  | tool (name : String) (id : String) (content : String)
deriving DecidableEq, Repr

/-- The structured error payload substituted for a failed tool invocation
(oai_wrapper.py:162-166): rendered from `RESULT`, `EXCEPTION_DETAILS`
(exception kind and message) and the `STACK` source context. -/
def errPayload (kind msg : String) : String :=
  "RESULT: Error, did not complete successfully; EXCEPTION_DETAILS: "
    ++ kind ++ ": " ++ msg ++ "; STACK: <source context>"

/-- Parsed JSON arguments of a tool call, as a field list. -/
def Args : Type := List (String × String)

/-- A registered tool: its invocation either returns a result string or
raises (modelled as `Except.error` with the exception message). -/
def ToolFn : Type := Args → Except String String

/-- The `try` block of `handle_tool_call` (oai_wrapper.py:153-166): the
registry lookup `tools[tool_name]` and the invocation both sit inside the
`try`, so a missing tool (`KeyError`) or a raising tool is absorbed into
the structured error payload. -/
def invokeTool (tools : List (String × ToolFn)) (name : String)
    (a : Args) : String :=
  match tools.find? (fun p => p.1 = name) with
  | none => errPayload "KeyError" name
  | some p =>
      match p.2 a with
      | .ok s => s
      | .error m => errPayload "Exception" m

/-- Fatal errors the tool loop can raise to the caller; `pydantic` is a
ValidationError propagating out of `collect_response`. -/
inductive LoopErr where
  | toolLimit
  | ctxWindow
  | policy
  | unexpected (r : Option String)
  | uncaughtToolException (args : String)
  | pydantic (e : PydanticErr)
deriving DecidableEq, Repr

/-- The `for tool_call in tool_calls` loop of `handle_tool_call`
(oai_wrapper.py:149-174): per call, run `json.loads` on the argument text
— this happens OUTSIDE the `try` block (oai_wrapper.py:151), so a parse
failure propagates — then append one tool-result message whose content is
the tool's result or the substituted error payload. -/
def handleToolGo (parse : String → Option Args)
    (tools : List (String × ToolFn)) :
    List Msg → List ToolCall → Except LoopErr (List Msg)
  | ms, [] => .ok ms
  | ms, tc :: rest =>
      match parse tc.args with
      | none => .error (.uncaughtToolException tc.args)
      | some a =>
          handleToolGo parse tools
            (ms ++ [Msg.tool tc.name tc.id (invokeTool tools tc.name a)]) rest

/-- `handle_tool_call(tool_calls)` up to its final `create` call
(oai_wrapper.py:132-176): append one assistant message echoing the
requested calls, then process each call in order. -/
def handleToolCalls (parse : String → Option Args)
    (tools : List (String × ToolFn)) (msgs : List Msg)
    (calls : List ToolCall) : Except LoopErr (List Msg) :=
  handleToolGo parse tools (msgs ++ [Msg.assistant calls]) calls

/-- Outcome of one non-streaming backend round-trip: the finish reason and
its payload, as read off `response.choices[0]`. -/
inductive Turn where
  | tools (calls : List ToolCall)
  | stop (content : String)
  | lengthExceeded
  | contentFilter
  | other (r : Option String)
deriving DecidableEq, Repr

/-- The non-streaming tool loop (oai_wrapper.py:239-267): the scripted
`turns` are the successive `create` responses.  While the finish reason is
`tool_calls`: check and decrement the call budget (raising
`Exception("Tool call limit exceeded")` when it is exhausted), handle the
requested calls and resend; afterwards map the final finish reason
(`length` / `content_filter` / `stop`・`eos` / other). -/
def toolLoopNS (parse : String → Option Args) (tools : List (String × ToolFn)) :
    Option Int → List Msg → List Turn → Except LoopErr (String × List Msg)
  | _, _, [] => .error (.unexpected none)
  | limit, msgs, turn :: rest =>
      match turn with
      | .tools calls =>
          match limit with
          | some l =>
              if l ≤ 0 then .error .toolLimit
              else do
                let msgs' ← handleToolCalls parse tools msgs calls
                toolLoopNS parse tools (some (l - 1)) msgs' rest
          | none => do
              let msgs' ← handleToolCalls parse tools msgs calls
              toolLoopNS parse tools none msgs' rest
      | .stop c => .ok (c, msgs)
      | .lengthExceeded => .error .ctxWindow
      | .contentFilter => .error .policy
      | .other r => .error (.unexpected r)

/-- The streaming tool loop (oai_wrapper.py:285-311): each scripted round
is a chunk list materialized through `collect_response`; the running token
count threads across rounds.  Budget, handling and the final finish-reason
mapping are identical to the non-streaming path, and on `stop`/`eos` the
joined content is yielded once. -/
def toolLoopS (parse : String → Option Args) (tools : List (String × ToolFn)) :
    Option Int → List Msg → Nat → List (List Chunk) →
      Except LoopErr (String × List Msg)
  | _, _, _, [] => .error (.unexpected none)
  | limit, msgs, tk, chunks :: rest =>
      match collectResponse chunks tk with
      | .error e => .error (.pydantic e)
      | .ok out =>
          if out.finish = some "tool_calls" then
            match limit with
            | some l =>
                if l ≤ 0 then .error .toolLimit
                else do
                  let msgs' ← handleToolCalls parse tools msgs out.calls
                  toolLoopS parse tools (some (l - 1)) msgs' out.tokens rest
            | none => do
                let msgs' ← handleToolCalls parse tools msgs out.calls
                toolLoopS parse tools none msgs' out.tokens rest
          else if out.finish = some "length" then .error .ctxWindow
          else if out.finish = some "content_filter" then .error .policy
          else if out.finish = some "stop" ∨ out.finish = some "eos" then
            .ok (out.content, msgs)
          else .error (.unexpected out.finish)

/-! ## Helper lemmas -/

theorem mergeArgs_partition {V : Type} (kw : String → Option V) :
    mergeArgs (promptArgsOf kw) (apiArgsOf kw) = kw := by
  funext k
  unfold mergeArgs promptArgsOf apiArgsOf
  by_cases h : isPromptKey k = true
  · rw [if_pos h, if_pos h]
  · rw [if_neg h, if_neg h]
    cases kw k <;> rfl

theorem toUpper_eq_self_of_not_alpha (c : Char) (h : c.isAlpha = false) :
    c.toUpper = c := by
  simp only [Char.isAlpha, Bool.or_eq_false_iff] at h
  obtain ⟨-, h2⟩ := h
  simp only [Char.isLower, Bool.and_eq_false_iff, decide_eq_false_iff_not] at h2
  unfold Char.toUpper
  rw [if_neg]
  rintro ⟨h97, h122⟩
  rcases h2 with h2 | h2
  · exact h2 (by rw [ge_iff_le, UInt32.le_def, BitVec.le_def]; simpa [Char.toNat] using h97)
  · exact h2 (by rw [UInt32.le_def, BitVec.le_def]; simpa [Char.toNat] using h122)

theorem pyUpperChar_eq_self_of_ascii_not_alpha (c : Char)
    (hascii : c.toNat < 128) (halpha : c.isAlpha = false) :
    pyUpperChar c = c := by
  unfold pyUpperChar
  rw [if_neg (fun he => absurd hascii (by rw [he]; decide)),
    if_neg (fun he => absurd hascii (by rw [he]; decide))]
  exact toUpper_eq_self_of_not_alpha c halpha

theorem mapPyUpper_eq_self (l : List Char)
    (h : ∀ c ∈ l, c.toNat < 128 ∧ c.isAlpha = false) :
    l.map pyUpperChar = l := by
  induction l with
  | nil => rfl
  | cons c t ih =>
      simp only [List.map_cons]
      obtain ⟨h1, h2⟩ := h c (List.mem_cons_self c t)
      rw [pyUpperChar_eq_self_of_ascii_not_alpha c h1 h2,
        ih (fun x hx => h x (List.mem_cons_of_mem _ hx))]

theorem pyUpperStr_eq_self_of_ascii_no_alpha (k : String)
    (h : ∀ c ∈ k.data, c.toNat < 128 ∧ c.isAlpha = false) : pyUpperStr k = k := by
  unfold pyUpperStr
  rw [mapPyUpper_eq_self k.data h]

/-! ## Claims about argument partitioning and the hook chain -/

/-- Claim C7: a chain of K hook layers whose before/after hooks are the
default identity hook produces the same result as calling the unwrapped
backend directly with the same mapping — for every backend, depth and
keyword-argument mapping.  The partition-then-merge of each layer
reconstructs exactly the original mapping, and the instrumented backend
records exactly one delegated call, carrying the original mapping. -/
theorem claim_C7 :
    (∀ (V R : Type) (inner : (String → Option V) → R) (K : Nat)
        (kw : String → Option V), decoratorChain inner K kw = inner kw)
    ∧ (∀ (V : Type) (kw : String → Option V),
        mergeArgs (promptArgsOf kw) (apiArgsOf kw) = kw)
    ∧ (∀ (V : Type) (K : Nat) (kw : String → Option V),
        decoratorChain loggingBackend K kw = [kw]) := by
  have hchain : ∀ (V R : Type) (inner : (String → Option V) → R) (K : Nat)
      (kw : String → Option V), decoratorChain inner K kw = inner kw := by
    intro V R inner K
    induction K with
    | zero => intro kw; rfl
    | succ k ih =>
        intro kw
        show decoratorStep (decoratorChain inner k) kw = inner kw
        unfold decoratorStep
        rw [mergeArgs_partition, ih]
  exact ⟨hchain, fun V kw => mergeArgs_partition kw,
    fun V K kw => hchain V _ loggingBackend K kw⟩

/-- Kwargs mapping binding only the small-roman-numeral key, for the
claim C10 counterexample. -/
def kwRom : String → Option String :=
  fun s => if s = "ⅰ" then some "v" else none

/-- Counterexample to claim C10 as stated: the key consisting of the one
character U+2170 (small roman numeral one) contains no alphabetic
characters — its Unicode category is Letter Number, which `isalpha`
rejects — yet `str.upper()` maps it to U+2160, so the key is not a fixed
point of uppercasing and the program classifies it as an api argument,
not a prompt argument. -/
theorem claim_C10_counterexample :
    ("ⅰ".data.all (fun c => !c.isAlpha)) = true
    ∧ isPromptKey "ⅰ" = false
    ∧ promptArgsOf kwRom "ⅰ" = none
    ∧ apiArgsOf kwRom "ⅰ" = some "v" := by
  decide

/-- Claim C10, amended: the public query interface classifies a keyword as
a prompt argument exactly when the key equals its own uppercased form;
consequently keys made of ASCII characters none of which is a letter
(such as digit-only keys or underscores) are classified as prompt
arguments, never as api arguments.  A non-ASCII key can contain no
alphabetic character and still be uppercased (small roman numerals), so
the ASCII restriction is necessary. -/
theorem claim_C10 :
    ∀ (kw : String → Option String) (k : String),
      (isPromptKey k = true ↔ k = pyUpperStr k)
      ∧ ((∀ c ∈ k.data, c.toNat < 128 ∧ c.isAlpha = false) →
          promptArgsOf kw k = kw k ∧ apiArgsOf kw k = none) := by
  intro kw k
  constructor
  · unfold isPromptKey
    exact decide_eq_true_iff
  · intro h
    have hk : isPromptKey k = true := by
      unfold isPromptKey
      rw [pyUpperStr_eq_self_of_ascii_no_alpha k h]
      simp
    refine ⟨?_, ?_⟩ <;> simp [promptArgsOf, apiArgsOf, hk]

/-- Concrete kwargs mapping binding only the key "123". -/
def kwNum : String → Option String :=
  fun s => if s = "123" then some "v" else none

/-- Witness for the amended claim C10 at the digit-only key "123". -/
theorem claim_C10_witness :
    promptArgsOf kwNum "123" = some "v" ∧ apiArgsOf kwNum "123" = none := by
  have h := (claim_C10 kwNum "123").2 (by decide)
  exact ⟨h.1.trans (by decide), h.2⟩

/-! ## Claims about stream aggregation and token accounting -/

/-- The two fragments of the claim C1 example: both carry the id "a", the
first also carries the argument prefix and the tool name; the second, as a
continuation fragment, carries no name. -/
def c1FragsClaim : List Frag :=
  [⟨some "a", some "f", some "\x7b\"x\":1"⟩, ⟨some "a", none, some "\x7d"⟩]

/-- Variant of the claim C1 example in which the second fragment repeats
the tool name. -/
def c1FragsClaimNamed : List Frag :=
  [⟨some "a", some "f", some "\x7b\"x\":1"⟩, ⟨some "a", some "f", some "\x7d"⟩]

/-- Counterexample to claim C1 as stated: the two fragments with id "a"
and argument texts "\x7b\"x\":1" and "\x7d" do NOT reconstruct to one call
with arguments "\x7b\"x\":1\x7d".  Because the second fragment carries a
(truthy) id, the code restarts the accumulator — overwriting the name
with the second fragment's (absent) name and seeding the argument list
with the second argument text, which is appended once more — so the
end-of-stream flush constructs Function(name=None, ...) and pydantic
raises a ValidationError.  Even if the second fragment repeats the name,
the reconstructed call has arguments "\x7d\x7d".  In neither reading does
the code return the call the claim promises. -/
theorem claim_C1_counterexample :
    aggregateFrags c1FragsClaim = .error PydanticErr.validationError
    ∧ aggregateFrags c1FragsClaimNamed = .ok [⟨"a", "f", "\x7d\x7d"⟩]
    ∧ aggregateFrags c1FragsClaim ≠ .ok [⟨"a", "f", "\x7b\"x\":1\x7d"⟩]
    ∧ aggregateFrags c1FragsClaimNamed ≠ .ok [⟨"a", "f", "\x7b\"x\":1\x7d"⟩] := by
  decide

/-- The fragment stream that does reconstruct the example call: the
id-bearing fragment carries empty argument text (as real streams do), and
the argument pieces follow in id-less fragments. -/
def c1FragsFixed : List Frag :=
  [⟨some "a", some "f", some ""⟩, ⟨none, none, some "\x7b\"x\":1"⟩,
   ⟨none, none, some "\x7d"⟩]

/-- Claim C1, amended: a fragment whose (truthy) id differs from the
current accumulator id first flushes and finalizes the prior accumulator
as (name, concatenated argument text) — raising a pydantic
ValidationError instead when the accumulated name is None; a fragment
without an id appends its argument text to the current accumulator; any
fragment carrying a truthy id (new or repeated) restarts the accumulator,
taking over its id and name and seeding the argument list with its own
argument text, which the unconditional append then adds a second time; at
stream end any open accumulator is finalized the same way.  In particular
the fragments with id "a" and empty argument text, then id-less argument
pieces "\x7b\"x\":1" and "\x7d", reconstruct to exactly one call with
arguments "\x7b\"x\":1\x7d". -/
theorem claim_C1_amended :
    (∀ (st : AggSt) (f : Frag) (i n : String),
        pyTruthy f.id = true → f.id ≠ st.curId →
        st.curId = some i → i ≠ "" → st.curName = some n →
        stepFrag st f =
          .ok ⟨st.finished ++ [⟨i, n, String.join st.curArgs⟩], f.id, f.name,
               [orEmpty f.args, orEmpty f.args]⟩)
    ∧ (∀ (st : AggSt) (f : Frag),
        pyTruthy f.id = true → f.id ≠ st.curId → pyTruthy st.curId = true →
        st.curName = none →
        stepFrag st f = .error PydanticErr.validationError)
    ∧ (∀ (st : AggSt) (f : Frag), f.id = none →
        stepFrag st f =
          .ok { st with curName := pyOr st.curName f.name,
                        curArgs := st.curArgs ++ [orEmpty f.args] })
    ∧ (∀ (st : AggSt) (f : Frag), pyTruthy f.id = true → f.id = st.curId →
        stepFrag st f =
          .ok ⟨st.finished, st.curId, f.name,
               [orEmpty f.args, orEmpty f.args]⟩)
    ∧ aggregateFrags c1FragsFixed = .ok [⟨"a", "f", "\x7b\"x\":1\x7d"⟩] := by
  refine ⟨?_, ?_, ?_, ?_, by decide⟩
  · intro st f i n h1 h2 hid hi hname
    have h2' : ¬(f.id = some i) := fun he => h2 (by rw [hid, he])
    have hpt : pyTruthy (some i) = true := by simp [pyTruthy, hi]
    simp [stepFrag, h1, h2', hpt, flushCur, finalizeCur, hid, hname, pyOr]
  · intro st f h1 h2 h3 hname
    cases hid : st.curId with
    | none => rw [hid] at h3; simp [pyTruthy] at h3
    | some i =>
        have h2' : ¬(f.id = some i) := fun he => h2 (by rw [hid, he])
        rw [hid] at h3
        simp [stepFrag, h1, h2', h3, flushCur, finalizeCur, hid, hname]
  · intro st f h
    have : pyTruthy f.id = false := by rw [h]; rfl
    simp [stepFrag, this]
  · intro st f h1 h2
    simp [stepFrag, h1, ← h2, pyOr]

/-- Concrete accumulator state and incoming fragment used to witness the
flush law of the amended claim C1. -/
def aggStW : AggSt := ⟨[], some "a", some "f", ["x"]⟩

/-- Incoming fragment with a fresh id, for the claim C1 witness. -/
def fragW : Frag := ⟨some "b", some "g", some "y"⟩

/-- Witness for the amended claim C1: processing a fragment with a new
truthy id over an open, fully named accumulator flushes and finalizes that
accumulator and restarts it from the fragment. -/
theorem claim_C1_witness :
    stepFrag aggStW fragW = .ok ⟨[⟨"a", "f", "x"⟩], some "b", some "g", ["y", "y"]⟩ :=
  (claim_C1_amended.1 aggStW fragW "a" "f" (by decide) (by decide) rfl (by decide)
    rfl).trans (by decide)

/-- Chunk stream exhibiting the divergent token accounting of claim C6:
two usage-less content chunks followed by a final usage-bearing chunk
reporting 7 total tokens. -/
def c6Chunks : List Chunk :=
  [⟨some ⟨some "hi", [], none⟩, none⟩, ⟨some ⟨some "!", [], none⟩, none⟩,
   ⟨none, some 7⟩]

/-- Claim C6 evaluated at the failing input: in the plain streaming path a
usage-bearing chunk REPLACES the running estimate (final count 7), but in
the tool-enabled streaming path (`collect_response`) the same chunk
sequence ends at 9, because the usage total is ADDED to the running
estimate instead of replacing it — contradicting the inline comment,
which in both paths says the final chunk lets the code "override our
default assumption of 1 token". -/
theorem claim_C6_bug :
    plainTokensFold c6Chunks 0 = 7
    ∧ (collectResponse c6Chunks 0).map CollectOut.tokens = .ok 9
    ∧ (collectResponse c6Chunks 0).map CollectOut.tokens ≠
        .ok (plainTokensFold c6Chunks 0) := by
  decide

/-! ## Engine lemmas -/

theorem lookupA_setA (l : List (Nat × Int)) (k : Nat) (v : Int) :
    lookupA (setA l k v) k = some v := by
  induction l with
  | nil => simp [setA, lookupA]
  | cons p t ih =>
      obtain ⟨k', v'⟩ := p
      by_cases h : k' = k
      · simp [setA, h, lookupA]
      · simp [setA, h, lookupA, ih]

theorem lookupA_removeA (l : List (Nat × Int)) (k : Nat) :
    lookupA (removeA l k) k = none := by
  induction l with
  | nil => rfl
  | cons p t ih =>
      obtain ⟨k', v'⟩ := p
      by_cases h : k' = k
      · simpa [removeA, List.filter_cons, h] using ih
      · simpa [removeA, List.filter_cons, h, lookupA] using ih

theorem foldl_min_mem (h : Nat → Nat) (l : List Nat) (w : Nat) :
    l.foldl (fun best x => if h x < h best then x else best) w ∈ w :: l := by
  induction l generalizing w with
  | nil => simp
  | cons x t ih =>
      simp only [List.foldl_cons]
      by_cases hc : h x < h w
      · rw [if_pos hc]
        rcases List.mem_cons.mp (ih x) with h1 | h1
        · rw [h1]; exact List.mem_cons_of_mem _ (List.mem_cons_self x t)
        · exact List.mem_cons_of_mem _ (List.mem_cons_of_mem _ h1)
      · rw [if_neg hc]
        rcases List.mem_cons.mp (ih w) with h1 | h1
        · rw [h1]; exact List.mem_cons_self w (x :: t)
        · exact List.mem_cons_of_mem _ (List.mem_cons_of_mem _ h1)

theorem selectWrapper_mem (h : Nat → Nat) (ws : List Nat) (b : Nat)
    (hsel : selectWrapper h ws = some b) : b ∈ ws := by
  cases ws with
  | nil => simp [selectWrapper] at hsel
  | cons w t =>
      simp only [selectWrapper, Option.some.injEq] at hsel
      rw [← hsel]
      exact foldl_min_mem h t w

theorem failStep_wrappers_subset (maxR : Nat) (st : EngineState) (b : Nat) :
    (failStep maxR st b).wrappers ⊆ st.wrappers := by
  cases hl : lookupA st.backoffs b with
  | none => simp [failStep, hl]
  | some c =>
      by_cases hc : c + 1 = (maxR : Int)
      · simp only [failStep, hl]
        rw [if_pos hc]
        exact List.erase_subset b st.wrappers
      · simp [failStep, hl, hc]

theorem runAttempts_avoid (maxR : Nat) (hints : Nat → Nat → Nat)
    (outs : Nat → Nat → Bool) (b : Nat) :
    ∀ (fuel t : Nat) (st : EngineState) (last : Option (Nat × Nat))
      (tr : List Attempt), b ∉ st.wrappers → (∀ a ∈ tr, a.b ≠ b) →
      b ∉ (runAttempts maxR hints outs fuel t st last tr).state.wrappers
      ∧ ∀ a ∈ (runAttempts maxR hints outs fuel t st last tr).trace, a.b ≠ b := by
  intro fuel
  induction fuel with
  | zero =>
      intro t st last tr hb htr
      exact ⟨hb, htr⟩
  | succ fuel ih =>
      intro t st last tr hb htr
      cases hsel : selectWrapper (hints t) st.wrappers with
      | none =>
          simp only [runAttempts, hsel]
          exact ⟨hb, htr⟩
      | some b' =>
          have hb' : b' ∈ st.wrappers := selectWrapper_mem _ _ _ hsel
          have hne : b' ≠ b := fun he => hb (he ▸ hb')
          have htr' : ∀ a ∈ tr ++ [Attempt.mk t b' true], a.b ≠ b := by
            intro a ha
            rcases List.mem_append.mp ha with h1 | h1
            · exact htr a h1
            · simp only [List.mem_singleton] at h1
              rw [h1]
              exact hne
          have htrf : ∀ a ∈ tr ++ [Attempt.mk t b' false], a.b ≠ b := by
            intro a ha
            rcases List.mem_append.mp ha with h1 | h1
            · exact htr a h1
            · simp only [List.mem_singleton] at h1
              rw [h1]
              exact hne
          by_cases ho : outs t b' = true
          · simp only [runAttempts, hsel, ho, if_pos]
            exact ⟨hb, htr'⟩
          · simp only [runAttempts, hsel, ho, if_neg, Bool.not_eq_true]
            exact ih (t + 1) (failStep maxR st b') (some (t, b'))
              (tr ++ [Attempt.mk t b' false])
              (fun hm => hb (failStep_wrappers_subset _ _ _ hm)) htrf

theorem runCalls_avoid (maxR : Nat) (b : Nat) :
    ∀ (specs : List ((Nat → Nat → Nat) × (Nat → Nat → Bool)))
      (st : EngineState), b ∉ st.wrappers →
      b ∉ (runCalls maxR specs st).1.wrappers
      ∧ ∀ tr ∈ (runCalls maxR specs st).2, ∀ a ∈ tr, a.b ≠ b := by
  intro specs
  induction specs with
  | nil =>
      intro st hb
      exact ⟨hb, by simp [runCalls]⟩
  | cons p rest ih =>
      intro st hb
      obtain ⟨h, o⟩ := p
      have hcall := runAttempts_avoid maxR h o b (maxR + 1) 0 st none [] hb
        (by intro a ha; simp at ha)
      have hrest := ih (engineCall maxR h o st).state hcall.1
      refine ⟨hrest.1, ?_⟩
      intro tr htr
      rcases List.mem_cons.mp htr with h1 | h1
      · rw [h1]; exact hcall.2
      · exact hrest.2 tr h1

theorem runAttempts_trace_len (maxR : Nat) (hints : Nat → Nat → Nat)
    (outs : Nat → Nat → Bool) :
    ∀ (fuel t : Nat) (st : EngineState) (last : Option (Nat × Nat))
      (tr : List Attempt),
      (runAttempts maxR hints outs fuel t st last tr).trace.length ≤
        tr.length + fuel := by
  intro fuel
  induction fuel with
  | zero =>
      intro t st last tr
      simp [runAttempts]
  | succ fuel ih =>
      intro t st last tr
      cases hsel : selectWrapper (hints t) st.wrappers with
      | none =>
          simp only [runAttempts, hsel]
          omega
      | some b' =>
          by_cases ho : outs t b' = true
          · simp only [runAttempts, hsel, ho, if_pos]
            simp
          · simp only [runAttempts, hsel, ho, if_neg, Bool.not_eq_true]
            have := ih (t + 1) (failStep maxR st b') (some (t, b'))
              (tr ++ [Attempt.mk t b' false])
            simp only [List.length_append, List.length_singleton] at this
            omega

theorem runAttempts_success (maxR : Nat) (hints : Nat → Nat → Nat)
    (outs : Nat → Nat → Bool) (b : Nat) :
    ∀ (fuel t : Nat) (st : EngineState) (last : Option (Nat × Nat))
      (tr : List Attempt), (∀ a ∈ tr, a.ok = false) →
      (runAttempts maxR hints outs fuel t st last tr).outcome = Outcome.success b →
      lookupA (runAttempts maxR hints outs fuel t st last tr).state.backoffs b =
          some (-1)
      ∧ ∃ pre lastA,
          (runAttempts maxR hints outs fuel t st last tr).trace = pre ++ [lastA]
          ∧ lastA.b = b ∧ lastA.ok = true ∧ ∀ a ∈ pre, a.ok = false := by
  intro fuel
  induction fuel with
  | zero =>
      intro t st last tr htr hout
      simp [runAttempts] at hout
  | succ fuel ih =>
      intro t st last tr htr hout
      cases hsel : selectWrapper (hints t) st.wrappers with
      | none =>
          simp only [runAttempts, hsel] at hout
          simp at hout
      | some b' =>
          by_cases ho : outs t b' = true
          · simp only [runAttempts, hsel, ho, if_pos] at hout ⊢
            have hb : b' = b := by
              simpa using hout
            subst hb
            refine ⟨by simp [successStep, lookupA_setA], tr, Attempt.mk t b' true,
              rfl, rfl, rfl, htr⟩
          · simp only [runAttempts, hsel, ho, if_neg, Bool.not_eq_true] at hout ⊢
            exact ih (t + 1) (failStep maxR st b') (some (t, b'))
              (tr ++ [Attempt.mk t b' false])
              (by intro a ha
                  rcases List.mem_append.mp ha with h1 | h1
                  · exact htr a h1
                  · simp only [List.mem_singleton] at h1
                    rw [h1])
              hout

theorem runAttempts_exhausted (maxR : Nat) (hints : Nat → Nat → Nat)
    (outs : Nat → Nat → Bool) :
    ∀ (fuel t : Nat) (st : EngineState) (tr : List Attempt)
      (last : Option (Nat × Nat)) (e : Option (Nat × Nat)),
      last = (tr.getLast?).map (fun a => (a.t, a.b)) →
      (∀ a ∈ tr, a.ok = false) →
      (runAttempts maxR hints outs fuel t st last tr).outcome = Outcome.exhausted e →
      e = ((runAttempts maxR hints outs fuel t st last tr).trace.getLast?).map
            (fun a => (a.t, a.b))
      ∧ (runAttempts maxR hints outs fuel t st last tr).trace.length =
          tr.length + fuel
      ∧ ∀ a ∈ (runAttempts maxR hints outs fuel t st last tr).trace,
          a.ok = false := by
  intro fuel
  induction fuel with
  | zero =>
      intro t st tr last e hlast htr hout
      have he : last = e := by simpa [runAttempts] using hout
      exact ⟨he ▸ hlast, by simp [runAttempts], htr⟩
  | succ fuel ih =>
      intro t st tr last e hlast htr hout
      cases hsel : selectWrapper (hints t) st.wrappers with
      | none =>
          simp only [runAttempts, hsel] at hout
          simp at hout
      | some b' =>
          by_cases ho : outs t b' = true
          · simp only [runAttempts, hsel, ho, if_pos] at hout
            simp at hout
          · simp only [runAttempts, hsel, ho, if_neg, Bool.not_eq_true] at hout ⊢
            have hres := ih (t + 1) (failStep maxR st b')
              (tr ++ [Attempt.mk t b' false]) (some (t, b')) e
              (by rw [List.getLast?_concat]; rfl)
              (by intro a ha
                  rcases List.mem_append.mp ha with h1 | h1
                  · exact htr a h1
                  · simp only [List.mem_singleton] at h1
                    rw [h1])
              hout
            refine ⟨hres.1, ?_, hres.2.2⟩
            have := hres.2.1
            simp only [List.length_append, List.length_singleton] at this
            omega

/-! ## Claims about the pool, retry and eviction -/

/-- Claim C2: a backend is removed from the pool together with its backoff
entry exactly when its failure counter — which starts at the healthy
sentinel -1 and is incremented once per failed attempt — reaches
max_retries: a failed attempt on a pooled backend with counter c evicts it
(removing the wrapper and deleting its backoff entry together) precisely
when c + 1 = max_retries, and otherwise only increments the counter; a
successful attempt never removes a backend; and a backend absent from the
pool is never selected again in any later call of the same Pool
instance.  (The pool is assumed free of duplicate backend objects, as the
backoff dictionary keyed by backend identity presupposes.) -/
theorem claim_C2 :
    (∀ (maxR : Nat) (st : EngineState) (b : Nat) (c : Int),
        st.wrappers.Nodup → lookupA st.backoffs b = some c →
        ((c + 1 = (maxR : Int) →
            b ∉ (failStep maxR st b).wrappers
            ∧ lookupA (failStep maxR st b).backoffs b = none)
          ∧ (c + 1 ≠ (maxR : Int) →
            (failStep maxR st b).wrappers = st.wrappers
            ∧ lookupA (failStep maxR st b).backoffs b = some (c + 1))))
    ∧ (∀ (st : EngineState) (b : Nat), (successStep st b).wrappers = st.wrappers)
    ∧ (∀ (maxR : Nat) (specs : List ((Nat → Nat → Nat) × (Nat → Nat → Bool)))
        (st : EngineState) (b : Nat), b ∉ st.wrappers →
        b ∉ (runCalls maxR specs st).1.wrappers
        ∧ ∀ tr ∈ (runCalls maxR specs st).2, ∀ a ∈ tr, a.b ≠ b) := by
  refine ⟨?_, fun st b => rfl, fun maxR specs st b hb => runCalls_avoid maxR b specs st hb⟩
  intro maxR st b c hnodup hlook
  constructor
  · intro hc
    simp only [failStep, hlook]
    rw [if_pos hc]
    refine ⟨?_, lookupA_removeA st.backoffs b⟩
    intro hmem
    exact absurd rfl ((List.Nodup.mem_erase_iff hnodup).mp hmem).1
  · intro hc
    simp only [failStep, hlook]
    rw [if_neg hc]
    exact ⟨rfl, lookupA_setA st.backoffs b (c + 1)⟩

/-- Witness for claim C2: with max_retries = 2, a failed attempt on a
backend whose counter stands at 1 evicts it — the wrapper and the backoff
entry disappear together. -/
theorem claim_C2_witness :
    (0 : Nat) ∉ (failStep 2 ⟨[0], [(0, 1)]⟩ 0).wrappers
    ∧ lookupA (failStep 2 ⟨[0], [(0, 1)]⟩ 0).backoffs 0 = none :=
  (claim_C2.1 2 ⟨[0], [(0, 1)]⟩ 0 1 (by decide) (by decide)).1 (by decide)

/-- Rate-limit readings for the first scripted call of the claim C3
counterexample: backend 1 selected first, then backend 0. -/
def c3H1 : Nat → Nat → Nat :=
  fun t b => if t = 0 then (if b = 1 then 0 else 1) else (if b = 0 then 0 else 1)

/-- Attempt outcomes of the first scripted call: the second attempt
succeeds. -/
def c3O1 : Nat → Nat → Bool := fun t _ => t = 1

/-- Rate-limit readings for the second scripted call: backend 0 twice,
then backend 1. -/
def c3H2 : Nat → Nat → Nat :=
  fun t b => if t ≤ 1 then (if b = 0 then 0 else 1) else (if b = 1 then 0 else 1)

/-- Attempt outcomes of the second and third scripted calls: every
attempt fails. -/
def c3OFail : Nat → Nat → Bool := fun _ _ => false

/-- Rate-limit readings for the third scripted call: backend 0 preferred
while pooled. -/
def c3H3 : Nat → Nat → Nat := fun _ b => if b = 0 then 0 else 1

/-- Fresh pool of two backends with healthy backoff counters. -/
def c3St0 : EngineState := ⟨[0, 1], [(0, -1), (1, -1)]⟩

/-- The first scripted call of the claim C3 counterexample. -/
def c3R1 : CallRes := engineCall 2 c3H1 c3O1 c3St0

/-- The second scripted call, starting from the state the first left. -/
def c3R2 : CallRes := engineCall 2 c3H2 c3OFail c3R1.state

/-- The third scripted call, starting from the state the second left. -/
def c3R3 : CallRes := engineCall 2 c3H3 c3OFail c3R2.state

/-- Counterexample to claim C3 as stated: in the third call of a scripted
sequence reachable from a fresh two-backend pool with max_retries = 2, the
backend set is non-empty at call start and every attempt fails, yet the
call raises the distinct no-backends error — not the last attempt's
underlying error — because both backends are evicted during the call and
the next selection finds the pool empty. -/
theorem claim_C3_counterexample :
    c3R2.state.wrappers ≠ []
    ∧ c3R3.trace.all (fun a => !a.ok) = true
    ∧ c3R3.trace ≠ []
    ∧ c3R3.outcome = Outcome.noBackends
    ∧ c3R3.outcome ≠
        Outcome.exhausted ((c3R3.trace.getLast?).map (fun a => (a.t, a.b))) := by
  decide

/-- Claim C3, amended: when an external call through the Pool raises the
retry-exhaustion error, that error is exactly the final attempt's
underlying error, unchanged, after exactly max_retries + 1 attempts all of
which failed; when eviction empties the pool mid-call, the distinct
no-backends error is raised instead (carrying no backend error). -/
theorem claim_C3_amended :
    ∀ (maxR : Nat) (hints : Nat → Nat → Nat) (outs : Nat → Nat → Bool)
      (st : EngineState) (e : Option (Nat × Nat)),
      (engineCall maxR hints outs st).outcome = Outcome.exhausted e →
      e = ((engineCall maxR hints outs st).trace.getLast?).map
            (fun a => (a.t, a.b))
      ∧ (engineCall maxR hints outs st).trace.length = maxR + 1
      ∧ ∀ a ∈ (engineCall maxR hints outs st).trace, a.ok = false := by
  intro maxR hints outs st e hout
  have h := runAttempts_exhausted maxR hints outs (maxR + 1) 0 st [] none e rfl
    (by intro a ha; simp at ha) hout
  refine ⟨h.1, ?_, h.2.2⟩
  simpa using h.2.1

/-- Constant rate-limit readings used in engine witnesses. -/
def cWH : Nat → Nat → Nat := fun _ _ => 0

/-- Single always-failing backend pool used in engine witnesses. -/
def cWSt : EngineState := ⟨[0], [(0, -1)]⟩

/-- Witness for the amended claim C3: one backend, max_retries = 1, every
attempt failing — the call raises the second (final) attempt's error after
exactly two failed attempts. -/
theorem claim_C3_witness :
    some (1, 0) =
      ((engineCall 1 cWH c3OFail cWSt).trace.getLast?).map (fun a => (a.t, a.b))
    ∧ (engineCall 1 cWH c3OFail cWSt).trace.length = 1 + 1 :=
  have h := claim_C3_amended 1 cWH c3OFail cWSt (some (1, 0)) (by decide)
  ⟨h.1, h.2.1⟩

/-- Claim C8: each external call makes at most max_retries + 1 backend
attempts, even when successive attempts select different backends; and a
successful attempt returns immediately — it is the final entry of the
attempt trace, every earlier attempt having failed — with that backend's
failure counter reset to the healthy sentinel -1. -/
theorem claim_C8 :
    ∀ (maxR : Nat) (hints : Nat → Nat → Nat) (outs : Nat → Nat → Bool)
      (st : EngineState),
      (engineCall maxR hints outs st).trace.length ≤ maxR + 1
      ∧ ∀ b, (engineCall maxR hints outs st).outcome = Outcome.success b →
          lookupA (engineCall maxR hints outs st).state.backoffs b = some (-1)
          ∧ ∃ pre lastA,
              (engineCall maxR hints outs st).trace = pre ++ [lastA]
              ∧ lastA.b = b ∧ lastA.ok = true ∧ ∀ a ∈ pre, a.ok = false := by
  intro maxR hints outs st
  refine ⟨?_, ?_⟩
  · have := runAttempts_trace_len maxR hints outs (maxR + 1) 0 st none []
    simpa using this
  · intro b hout
    exact runAttempts_success maxR hints outs b (maxR + 1) 0 st none []
      (by intro a ha; simp at ha) hout

/-- Attempt outcomes for the claim C8 witness: every attempt succeeds. -/
def cWOk : Nat → Nat → Bool := fun _ _ => true

/-- Witness for claim C8: a single-backend pool with a succeeding backend
makes at most max_retries + 1 attempts and leaves the backend healthy. -/
theorem claim_C8_witness :
    (engineCall 1 cWH cWOk cWSt).trace.length ≤ 1 + 1
    ∧ lookupA (engineCall 1 cWH cWOk cWSt).state.backoffs 0 = some (-1) :=
  have h := claim_C8 1 cWH cWOk cWSt
  ⟨h.1, (h.2 0 (by decide)).1⟩

/-- Claim C9: when the backend set is empty at selection time, the call
raises the distinct no-backends error immediately — zero backend attempts
are made, the pool state is untouched, and no backend error is carried. -/
theorem claim_C9 :
    ∀ (maxR : Nat) (hints : Nat → Nat → Nat) (outs : Nat → Nat → Bool)
      (st : EngineState), st.wrappers = [] →
      engineCall maxR hints outs st = ⟨Outcome.noBackends, st, []⟩ := by
  intro maxR hints outs st h
  unfold engineCall runAttempts
  rw [h]
  rfl

/-- Witness for claim C9: a pool constructed with no backends raises the
no-backends error with an empty attempt trace. -/
theorem claim_C9_witness :
    engineCall 3 cWH cWOk ⟨[], []⟩ = ⟨Outcome.noBackends, ⟨[], []⟩, []⟩ :=
  claim_C9 3 cWH cWOk ⟨[], []⟩ rfl

/-! ## Claims about the tool loop -/

/-- JSON argument parser used in concrete tool-loop runs: only the empty
object parses. -/
def c4Parse : String → Option Args :=
  fun s => if s = "\x7b\x7d" then some [] else none

/-- Registered tools used in concrete tool-loop runs. -/
def c4Tools : List (String × ToolFn) :=
  [("fa", fun _ => .ok "ra"), ("fb", fun _ => .ok "rb"), ("fc", fun _ => .ok "rc")]

/-- First requested call of round one. -/
def c4tcA : ToolCall := ⟨"idA", "fa", "\x7b\x7d"⟩

/-- Second requested call of round one. -/
def c4tcB : ToolCall := ⟨"idB", "fb", "\x7b\x7d"⟩

/-- The single requested call of round two. -/
def c4tcC : ToolCall := ⟨"idC", "fc", "\x7b\x7d"⟩

/-- The scripted non-streaming turn outcomes: tool_calls (two calls),
tool_calls (one call), stop. -/
def c4Turns : List Turn :=
  [.tools [c4tcA, c4tcB], .tools [c4tcC], .stop "done"]

/-- Initial conversation. -/
def c4Msgs0 : List Msg := [Msg.base "m0"]

/-- Expected final conversation: per round, one assistant echo plus one
tool-result message per requested call. -/
def c4Expected : List Msg :=
  [Msg.base "m0", Msg.assistant [c4tcA, c4tcB],
   Msg.tool "fa" "idA" "ra", Msg.tool "fb" "idB" "rb",
   Msg.assistant [c4tcC], Msg.tool "fc" "idC" "rc"]

/-- Streamed round one: fragments for the two calls, closing with the
tool_calls finish reason and a usage-only chunk. -/
def c4Round1 : List Chunk :=
  [⟨some ⟨none, [⟨some "idA", some "fa", some ""⟩, ⟨none, none, some "\x7b"⟩], none⟩, none⟩,
   ⟨some ⟨none, [⟨none, none, some "\x7d"⟩, ⟨some "idB", some "fb", some ""⟩], none⟩, none⟩,
   ⟨some ⟨none, [⟨none, none, some "\x7b"⟩, ⟨none, none, some "\x7d"⟩], some "tool_calls"⟩, none⟩,
   ⟨none, some 5⟩]

/-- Streamed round two: one call, finish reason tool_calls. -/
def c4Round2 : List Chunk :=
  [⟨some ⟨none, [⟨some "idC", some "fc", some ""⟩, ⟨none, none, some "\x7b\x7d"⟩], some "tool_calls"⟩, none⟩]

/-- Streamed round three: content chunks closing with the stop finish
reason. -/
def c4Round3 : List Chunk :=
  [⟨some ⟨some "do", [], none⟩, none⟩, ⟨some ⟨some "ne", [], some "stop"⟩, none⟩]

/-- The three scripted streamed rounds. -/
def c4Rounds : List (List Chunk) := [c4Round1, c4Round2, c4Round3]

/-- Claim C4: with turn outcomes [tool_calls, tool_calls, stop] —
round one requesting two calls and round two one call — call_limit = 1
raises the tool-call-limit error at the second tool_calls turn, while
call_limit = 2 and no limit complete after exactly two rounds, each round
appending one assistant echo plus one tool-result message per call, and
return the final stop content; the budget is spent once per round-trip
(round one consumes one unit despite carrying two calls), in both the
non-streaming and the streaming path. -/
theorem claim_C4 :
    toolLoopNS c4Parse c4Tools (some 1) c4Msgs0 c4Turns = .error .toolLimit
    ∧ toolLoopNS c4Parse c4Tools (some 2) c4Msgs0 c4Turns = .ok ("done", c4Expected)
    ∧ toolLoopNS c4Parse c4Tools none c4Msgs0 c4Turns = .ok ("done", c4Expected)
    ∧ toolLoopS c4Parse c4Tools (some 1) c4Msgs0 0 c4Rounds = .error .toolLimit
    ∧ toolLoopS c4Parse c4Tools (some 2) c4Msgs0 0 c4Rounds = .ok ("done", c4Expected)
    ∧ toolLoopS c4Parse c4Tools none c4Msgs0 0 c4Rounds = .ok ("done", c4Expected) :=
  ⟨rfl, rfl, rfl, rfl, rfl, rfl⟩

/-- A requested call whose argument text fails to parse as JSON. -/
def c5BadCall : ToolCall := ⟨"idX", "fa", "oops"⟩

/-- Counterexample to claim C5 as stated: a requested call whose JSON
argument text fails to parse raises out of the tool loop — `json.loads`
runs outside the `try` block of `handle_tool_call` — instead of being
absorbed into a tool-result message, so the conversation does not
continue to the scripted stop turn. -/
theorem claim_C5_counterexample :
    handleToolCalls c4Parse c4Tools c4Msgs0 [c5BadCall] =
      .error (.uncaughtToolException "oops")
    ∧ toolLoopNS c4Parse c4Tools none c4Msgs0 [.tools [c5BadCall], .stop "done"] =
        .error (.uncaughtToolException "oops") :=
  ⟨rfl, rfl⟩

/-- Claim C5, amended: for every requested call whose JSON argument text
parses, handling never raises — the loop appends one assistant echo and
then one tool-result message per call, where a failing registry lookup or
a raising tool invocation is absorbed as the structured error payload
(error kind, message, source context) substituted for that tool's textual
result; only a JSON parse failure propagates.  The final two conjuncts
exhibit the payload substituted for a raising invocation and for a
missing tool. -/
theorem claim_C5_amended :
    (∀ (parse : String → Option Args) (tools : List (String × ToolFn))
        (msgs : List Msg) (calls : List ToolCall),
        (∀ tc ∈ calls, (parse tc.args).isSome = true) →
        handleToolCalls parse tools msgs calls =
          .ok (msgs ++ [Msg.assistant calls]
            ++ calls.map (fun tc =>
                  Msg.tool tc.name tc.id
                    (invokeTool tools tc.name ((parse tc.args).getD [])))))
    ∧ invokeTool [("f", fun _ => .error "boom")] "f" [] =
        errPayload "Exception" "boom"
    ∧ invokeTool c4Tools "zz" [] = errPayload "KeyError" "zz" := by
  refine ⟨?_, rfl, rfl⟩
  intro parse tools msgs calls hcalls
  unfold handleToolCalls
  have main : ∀ (cs : List ToolCall) (ms : List Msg),
      (∀ tc ∈ cs, (parse tc.args).isSome = true) →
      handleToolGo parse tools ms cs =
        Except.ok (ms ++ cs.map (fun tc =>
          Msg.tool tc.name tc.id (invokeTool tools tc.name ((parse tc.args).getD [])))) := by
    intro cs
    induction cs with
    | nil =>
        intro ms hcs
        simp [handleToolGo]
    | cons tc rest ih =>
        intro ms hcs
        obtain ⟨a, ha⟩ := Option.isSome_iff_exists.mp
          (hcs tc (List.mem_cons_self tc rest))
        simp only [handleToolGo, ha]
        rw [ih _ (fun x hx => hcs x (List.mem_cons_of_mem _ hx))]
        simp [ha]
  rw [main calls (msgs ++ [Msg.assistant calls]) hcalls, List.append_assoc]

/-- Witness for the amended claim C5: a parse-clean round appends the
assistant echo and one tool-result message carrying the invocation
result. -/
theorem claim_C5_witness :
    handleToolCalls c4Parse c4Tools c4Msgs0 [c4tcA] =
      .ok (c4Msgs0 ++ [Msg.assistant [c4tcA]]
        ++ [Msg.tool "fa" "idA" "ra"]) :=
  (claim_C5_amended.1 c4Parse c4Tools c4Msgs0 [c4tcA] (by decide)).trans rfl

end LLMWrappers
